import Mathlib

/-!
Shallow embedding of the `terrarium_monitor` telemetry pipeline.

Server side (`src/backend`): the measurement ingestion endpoint
(`post_measurements` with `normalize_reading` and `get_or_create_sensor`),
the range query (`get_measurements`), and the latest-per-metric summary
(`get_summary` with `build_summary_payload`), all over a store that embeds
the `sensors` and `measurements` tables of `src/backend/models.py`.  The
`session_scope` context manager of `src/backend/db.py` commits when its
`with`-block is exited normally (including by an early `return`) and rolls
back only when an exception propagates; the ingestion embedding reproduces
exactly that behaviour.

Agent side (`src/agent/agent.py`): one iteration of the body of `poll_loop`
(a "tick"), with the sensor `read` capability and the transport
`post_readings` call modelled as environment functions that may raise.

Modelling conventions: Python floats are modelled by `PyFloat` (a rational
for the finite case plus the three non-finite values); no claim depends on
rounding.  `datetime` instants are modelled as integers on a linear UTC
scale, and `datetime.fromisoformat` as a parser into that scale covering the
`YYYY-MM-DD[THH:MM[:SS]][+HH:MM]` forms exercised by the repository;
timestamp claims depend only on order and offset normalisation, which the
linear scale preserves.  JSON payload fields are modelled at the types the
code paths under proof can observe.
-/

namespace Terrarium

/-- A Python `float` value: a finite double (modelled by its rational
value) or one of the non-finite values `inf`, `-inf`, `nan`. -/
inductive PyFloat where
  | finite (q : ℚ)
  | inf
  | negInf
  | nan
deriving DecidableEq

/-- A scalar Python value as produced by the JSON layer for the `value`
field of a reading: `None`, a bool, an int, a float, or a string. -/
inductive PyVal where
  | vNone
  | vBool (b : Bool)
  | vInt (n : Int)
  | vFloat (x : PyFloat)
  | vStr (s : String)
deriving DecidableEq

/-- Python truthiness of an optional string field (`None` and `""` are
falsy, every other string is truthy). -/
def truthyOptStr : Option String → Bool
  | none => false
  | some s => s != ""

/-- Python's `opt or default` on optional strings, as `or` evaluates it:
the default is used when the value is absent or an empty string. -/
def pyOrStr (o : Option String) (d : String) : String :=
  match o with
  | some s => if s = "" then d else s
  | none => d

/-- Python's `opt or default` on optional integers, as `or` evaluates it:
the default is used when the value is absent or `0`. -/
def pyOrInt (o : Option Int) (d : Int) : Int :=
  match o with
  | some n => if n = 0 then d else n
  | none => d

/-- Fold a list of decimal digit characters into a natural number. -/
def digitsToNat (cs : List Char) : Nat :=
  cs.foldl (fun acc c => acc * 10 + (c.toNat - 48)) 0

/-- Split a leading sign character; returns (isNegative, rest). -/
def splitSign : List Char → Bool × List Char
  | '-' :: rest => (true, rest)
  | '+' :: rest => (false, rest)
  | cs => (false, cs)

/-- Take a maximal run of leading decimal digits. -/
def takeDigits (cs : List Char) : List Char × List Char :=
  (cs.takeWhile Char.isDigit, cs.dropWhile Char.isDigit)

/-- The decimal-exponent part of Python's float literal grammar:
`e`/`E`, an optional sign, at least one digit, and nothing after. -/
def parseExpPart : List Char → Option Int
  | [] => some 0
  | c :: r =>
    if c = 'e' ∨ c = 'E' then
      let (eneg, r2) := splitSign r
      let (ed, r3) := takeDigits r2
      if ed.isEmpty ∨ ¬ r3.isEmpty then none
      else some (if eneg then -(digitsToNat ed : Int) else (digitsToNat ed : Int))
    else none

/-- Python's `float(str)` conversion: optional surrounding spaces, an
optional sign, then `inf`/`infinity`/`nan` (case-insensitive) or a decimal
mantissa with an optional fraction and exponent. -/
def parsePyFloatString (s : String) : Option PyFloat :=
  let cs := ((s.data.dropWhile (· = ' ')).reverse.dropWhile (· = ' ')).reverse
  let (neg, cs1) := splitSign cs
  let low := cs1.map Char.toLower
  if low = "inf".data ∨ low = "infinity".data then
    some (if neg then PyFloat.negInf else PyFloat.inf)
  else if low = "nan".data then some PyFloat.nan
  else
    let (ip, r1) := takeDigits cs1
    let (fp, r2) :=
      match r1 with
      | '.' :: r => takeDigits r
      | _ => ([], r1)
    if ip.length + fp.length = 0 then none
    else
      match parseExpPart r2 with
      | none => none
      | some e =>
        let mant : ℚ := (digitsToNat (ip ++ fp) : ℚ) / ((10 : ℚ) ^ fp.length)
        let signed := if neg then -mant else mant
        some (PyFloat.finite (signed * (10 : ℚ) ^ e))

/-- Python's `float(value)` applied to a JSON scalar: bools and ints embed
into floats, strings go through the literal grammar, `None` raises. -/
def pyFloatCoerce : PyVal → Option PyFloat
  | PyVal.vNone => none
  | PyVal.vBool b => some (PyFloat.finite (if b then 1 else 0))
  | PyVal.vInt n => some (PyFloat.finite (n : ℚ))
  | PyVal.vFloat x => some x
  | PyVal.vStr s => parsePyFloatString s

/-- Read exactly `n` leading digit characters as a number. -/
def parseFixedDigits (n : Nat) (cs : List Char) : Option (Nat × List Char) :=
  let ds := cs.take n
  if ds.length = n ∧ ds.all Char.isDigit then some (digitsToNat ds, cs.drop n)
  else none

/-- Expect a specific character at the head of the input. -/
def expectChar (c : Char) : List Char → Option (List Char)
  | [] => none
  | d :: rest => if d = c then some rest else none

/-- The `±HH:MM` offset suffix accepted by `datetime.fromisoformat`,
returned in minutes; an empty suffix means a naive timestamp. -/
def parseOffsetPart : List Char → Option (Option Int)
  | [] => some none
  | c :: rest =>
    if c = '+' ∨ c = '-' then
      match parseFixedDigits 2 rest with
      | none => none
      | some (oh, r1) =>
        match expectChar ':' r1 with
        | none => none
        | some r2 =>
          match parseFixedDigits 2 r2 with
          | none => none
          | some (om, r3) =>
            if r3.isEmpty ∧ oh < 24 ∧ om < 60 then
              let total : Int := (oh : Int) * 60 + (om : Int)
              some (some (if c = '-' then -total else total))
            else none
    else none

/-- Linearise a validated calendar tuple onto the integer UTC scale used by
the embedding (seconds; fields are range-checked before use, so the
encoding is strictly monotone in the tuple). -/
def linearTs (y mo d h mi s : Nat) : Int :=
  (((((y : Int) * 12 + ((mo : Int) - 1)) * 31 + ((d : Int) - 1)) * 24
      + (h : Int)) * 60 + (mi : Int)) * 60 + (s : Int)

/-- The optional `:SS` seconds suffix of the time part. -/
def parseSecondsPart (cs : List Char) : Option (Nat × List Char) :=
  match cs with
  | ':' :: r =>
    match parseFixedDigits 2 r with
    | none => none
    | some (s, r1) => if s < 60 then some (s, r1) else none
  | _ => some (0, cs)

/-- The `HH:MM[:SS][offset]` time-of-day part. -/
def parseTimePart (cs : List Char) : Option (Nat × Nat × Nat × Option Int) :=
  match parseFixedDigits 2 cs with
  | none => none
  | some (h, r1) =>
    match expectChar ':' r1 with
    | none => none
    | some r2 =>
      match parseFixedDigits 2 r2 with
      | none => none
      | some (mi, r3) =>
        match parseSecondsPart r3 with
        | none => none
        | some (s, r4) =>
          match parseOffsetPart r4 with
          | none => none
          | some off =>
            if h < 24 ∧ mi < 60 then some (h, mi, s, off) else none

/-- Python's `datetime.fromisoformat` on the forms the repository exercises
(`YYYY-MM-DD`, optionally `T`- or space-separated `HH:MM[:SS]`, optionally
a `±HH:MM` offset), landing on the linear UTC scale; `none` models the
`ValueError` raised on malformed input. -/
def fromisoformat (s : String) : Option (Int × Bool) :=
  match parseFixedDigits 4 s.data with
  | none => none
  | some (y, r1) =>
    match expectChar '-' r1 with
    | none => none
    | some r2 =>
      match parseFixedDigits 2 r2 with
      | none => none
      | some (mo, r3) =>
        match expectChar '-' r3 with
        | none => none
        | some r4 =>
          match parseFixedDigits 2 r4 with
          | none => none
          | some (d, r5) =>
            if ¬ (1 ≤ mo ∧ mo ≤ 12 ∧ 1 ≤ d ∧ d ≤ 31) then none
            else
              match r5 with
              | [] => some (linearTs y mo d 0 0 0, false)
              | c :: r6 =>
                if c = 'T' ∨ c = ' ' then
                  match parseTimePart r6 with
                  | none => none
                  | some (h, mi, sec, off) =>
                    let base := linearTs y mo d h mi sec
                    match off with
                    | none => some (base, false)
                    | some offMin => some (base - offMin * 60, true)
                else none

/-- The function `parse_iso8601` of `backend/utils.py`: reject empty input, rewrite `Z` to
`+00:00`, parse, treat a missing offset as UTC, and normalise to UTC
(already performed by the offset subtraction in `fromisoformat`). -/
def parse_iso8601 (s : String) : Except String Int :=
  if s = "" then Except.error "Timestamp value is required"
  else
    let normalized := s.replace "Z" "+00:00"
    match fromisoformat normalized with
    | some (ts, _) => Except.ok ts
    | none => Except.error "Invalid isoformat string"

/-- The helper `parse_optional_datetime` from `backend/api.py`: absent or empty query
parameters yield no bound, anything else must parse. -/
def parse_optional_datetime (v : Option String) : Except String (Option Int) :=
  match v with
  | none => Except.ok none
  | some s => if s = "" then Except.ok none else (parse_iso8601 s).map some

/-- A row of the `sensors` table (`backend/models.py`); `enabled`,
`poll_interval_sec` and `unit_preference` carry the column defaults when a
constructor omits them. -/
structure Sensor where
  id : Nat
  key : String
  name : String
  model : Option String
  location : Option String
  enabled : Bool
  poll_interval_sec : Int
  unit_preference : String
deriving DecidableEq

/-- A row of the `measurements` table (`backend/models.py`). -/
structure Measurement where
  sensor_id : Nat
  metric : String
  value : PyFloat
  unit : String
  recorded_at : Int
deriving DecidableEq

/-- The durable store: the two tables plus the autoincrement counter for
sensor primary keys.  Lists are in insertion order. -/
structure Store where
  sensors : List Sensor
  measurements : List Measurement
  next_sensor_id : Nat
deriving DecidableEq

/-- A freshly initialised database. -/
def emptyStore : Store := Store.mk [] [] 1

/-- An incoming reading record as the ingestion endpoint reads it from the
JSON body; `none` models an absent key (indistinguishable from JSON `null`
through `dict.get`), and `value` keeps its raw JSON scalar. -/
structure RawReading where
  sensor_key : Option String
  metric : Option String
  value : PyVal
  unit : Option String
  recorded_at : Option String
  sensor_name : Option String
  sensor_model : Option String
  sensor_location : Option String
  poll_interval_sec : Option Int
deriving DecidableEq

/-- The dictionary `normalize_reading` returns on success. -/
structure NormReading where
  sensor_key : String
  sensor_name : Option String
  sensor_model : Option String
  sensor_location : Option String
  poll_interval_sec : Option Int
  metric : String
  value : PyFloat
  unit : String
  recorded_at : Int
deriving DecidableEq

/-- The validator `normalize_reading` from `backend/api.py`: require truthy `sensor_key`
and `metric`, a non-`None` value, and a non-`None` unit; coerce the value
with `float(...)`; use the supplied `recorded_at` when truthy (parsing it,
with parse errors propagating as `ValueError`), else the current time
`now`. -/
def normalize_reading (now : Int) (r : RawReading) : Except String NormReading :=
  match r.sensor_key, r.metric, r.unit with
  | some k, some mt, some u =>
    if k = "" ∨ mt = "" ∨ r.value = PyVal.vNone then
      Except.error "sensor_key, metric, value, and unit are required"
    else
      match pyFloatCoerce r.value with
      | none => Except.error "value must be a number"
      | some v =>
        match r.recorded_at with
        | some s =>
          if s = "" then
            Except.ok (NormReading.mk k r.sensor_name r.sensor_model
              r.sensor_location r.poll_interval_sec mt v u now)
          else
            (parse_iso8601 s).map (fun ts =>
              NormReading.mk k r.sensor_name r.sensor_model
                r.sensor_location r.poll_interval_sec mt v u ts)
        | none =>
          Except.ok (NormReading.mk k r.sensor_name r.sensor_model
            r.sensor_location r.poll_interval_sec mt v u now)
  | _, _, _ => Except.error "sensor_key, metric, value, and unit are required"

/-- Python `str.title()` applied after the underscore replacement: uppercase each
letter that follows a non-letter, lowercase the rest. -/
def pyTitleGo : Bool → List Char → List Char
  | _, [] => []
  | prev, c :: cs =>
    if c.isAlpha then
      (if prev then c.toLower else c.toUpper) :: pyTitleGo true cs
    else c :: pyTitleGo false cs

/-- Python `s.title()`. -/
def pyTitle (s : String) : String := String.mk (pyTitleGo false s.data)

/-- Python `key.replace("_", " ")`: for a single-character pattern this is the
character-wise substitution. -/
def replaceUnderscores (s : String) : String :=
  String.mk (s.data.map (fun c => if c = '_' then ' ' else c))

/-- The default display name derived from a sensor key: underscores become
spaces and the result is title-cased. -/
def keyToDisplayName (key : String) : String := pyTitle (replaceUnderscores key)

/-- The resolver `get_or_create_sensor` from `backend/api.py`: look the sensor up by
key; if absent, insert a row whose name falls back to the key-derived
display name when the supplied name is falsy, whose model and location are
carried verbatim, and whose poll interval is `supplied or 60`. -/
def get_or_create_sensor (store : Store) (data : NormReading) : Sensor × Store :=
  match store.sensors.find? (fun s => s.key == data.sensor_key) with
  | some s => (s, store)
  | none =>
    let name := pyOrStr data.sensor_name (keyToDisplayName data.sensor_key)
    let s := Sensor.mk store.next_sensor_id data.sensor_key name
      data.sensor_model data.sensor_location true
      (pyOrInt data.poll_interval_sec 60) "f"
    (s, Store.mk (store.sensors ++ [s]) store.measurements (store.next_sensor_id + 1))

/-- Outcome of an API handler: a JSON success payload or a 400-class error
response. -/
inductive ApiResult (α : Type) where
  | ok (value : α)
  | badRequest (msg : String)
deriving DecidableEq

/-- The body of the `with session_scope(...)` block of `post_measurements`.
On a `ValueError` the handler returns the 400 response from inside the
`with`-block; that exits `session_scope` normally, so the session commits
everything already added for earlier records — the returned store therefore
keeps those rows. -/
def ingest_loop (now : Int) : List RawReading → Store → Nat → ApiResult Nat × Store
  | [], store, created => (ApiResult.ok created, store)
  | r :: rest, store, created =>
    match normalize_reading now r with
    | Except.error msg => (ApiResult.badRequest msg, store)
    | Except.ok data =>
      let sc := get_or_create_sensor store data
      let m := Measurement.mk sc.1.id data.metric data.value data.unit data.recorded_at
      ingest_loop now rest
        (Store.mk sc.2.sensors (sc.2.measurements ++ [m]) sc.2.next_sensor_id)
        (created + 1)

/-- The handler `post_measurements` from `backend/api.py`: a missing or non-list or
empty `readings` field is rejected before the session opens; otherwise the
records are processed in order inside one session scope. -/
def post_measurements (now : Int) (store : Store) (body : Option (List RawReading)) :
    ApiResult Nat × Store :=
  match body with
  | none => (ApiResult.badRequest "readings must be a non-empty list", store)
  | some [] => (ApiResult.badRequest "readings must be a non-empty list", store)
  | some readings => ingest_loop now readings store 0

/-- Resolve a measurement's owning sensor row by primary key, as the
`Measurement.sensor` relationship does. -/
def sensorById (store : Store) (sid : Nat) : Option Sensor :=
  store.sensors.find? (fun s => s.id == sid)

/-- The joined rows `(sensor, measurement)` underlying both read queries. -/
def joined (store : Store) : List (Sensor × Measurement) :=
  store.measurements.filterMap (fun m => (sensorById store m.sensor_id).map (fun s => (s, m)))

/-- The shape of `serialize_measurement(..., include_sensor=False)`. -/
structure SerMeas where
  metric : String
  value : PyFloat
  unit : String
  recorded_at : Int
deriving DecidableEq

/-- The shape of `serialize_measurement(..., include_sensor=True)`. -/
structure SerMeasFull where
  metric : String
  value : PyFloat
  unit : String
  recorded_at : Int
  sensor_key : String
deriving DecidableEq

/-- Serialize a measurement without its sensor key. -/
def serialize_measurement (m : Measurement) : SerMeas :=
  SerMeas.mk m.metric m.value m.unit m.recorded_at

/-- Serialize a measurement together with its owning sensor's key. -/
def serialize_with_sensor (s : Sensor) (m : Measurement) : SerMeasFull :=
  SerMeasFull.mk m.metric m.value m.unit m.recorded_at s.key

/-- Sort key of both read queries: the measurement's `recorded_at`. -/
def recKey (row : Sensor × Measurement) : Int := row.2.recorded_at

/-- The query's `ORDER BY recorded_at` ascending (stable on the insertion order). -/
def sortAsc (l : List (Sensor × Measurement)) : List (Sensor × Measurement) :=
  List.insertionSort (fun a b => recKey a ≤ recKey b) l

/-- The query's `ORDER BY recorded_at DESC` (stable on the insertion order). -/
def sortDesc (l : List (Sensor × Measurement)) : List (Sensor × Measurement) :=
  List.insertionSort (fun a b => recKey b ≤ recKey a) l

/-- SQL `LIMIT n`: a negative limit means no bound (SQLite semantics),
otherwise keep the first `n` rows. -/
def sqlLimit {α : Type} (n : Int) (l : List α) : List α :=
  if n < 0 then l else l.take n.toNat

/-- The row filter of the range query: key and metric must match, and the
optional bounds are inclusive on both ends. -/
def matchesQuery (k mt : String) (sdt edt : Option Int) (row : Sensor × Measurement) : Bool :=
  row.1.key == k && row.2.metric == mt &&
    (match sdt with
     | some t => decide (t ≤ row.2.recorded_at)
     | none => true) &&
    (match edt with
     | some t => decide (row.2.recorded_at ≤ t)
     | none => true)

/-- The query-building part of `get_measurements` (after parameter
parsing): filter, order, cap at `min(limit, 10000)`, serialize. -/
def get_measurements_core (store : Store) (k mt : String) (sdt edt : Option Int)
    (limit : Int) (order : String) : List SerMeasFull :=
  let filtered := (joined store).filter (matchesQuery k mt sdt edt)
  let sorted := if order = "desc" then sortDesc filtered else sortAsc filtered
  (sqlLimit (min limit 10000) sorted).map (fun row => serialize_with_sensor row.1 row.2)

/-- The full `get_measurements` handler: required `sensor_key` and
`metric`, optional `start`/`end` that must parse, then the core query. -/
def get_measurements (store : Store) (sensor_key metric : Option String)
    (start_p end_p : Option String) (limit : Int) (order : String) :
    ApiResult (List SerMeasFull) :=
  match sensor_key, metric with
  | some k, some mt =>
    if k = "" ∨ mt = "" then ApiResult.badRequest "sensor_key and metric are required"
    else
      match parse_optional_datetime start_p with
      | Except.error e => ApiResult.badRequest e
      | Except.ok sdt =>
        match parse_optional_datetime end_p with
        | Except.error e => ApiResult.badRequest e
        | Except.ok edt => ApiResult.ok (get_measurements_core store k mt sdt edt limit order)
  | _, _ => ApiResult.badRequest "sensor_key and metric are required"

/-- One entry of the summary payload: a sensor's identity metadata plus
the reduced metric list. -/
structure SummaryEntry where
  key : String
  name : String
  model : Option String
  location : Option String
  metrics : List SerMeas
deriving DecidableEq

/-- Append a measurement to a summary entry unless its metric was already
seen for that sensor (the `metrics_seen` guard). -/
def addMetricToEntry (e : SummaryEntry) (m : Measurement) : SummaryEntry :=
  if e.metrics.any (fun x => x.metric == m.metric) then e
  else SummaryEntry.mk e.key e.name e.model e.location
    (e.metrics ++ [serialize_measurement m])

/-- Process one scanned row: `summary_map.setdefault` keyed by the sensor
key (first row's metadata wins), then the per-metric first-wins append. -/
def addSummaryRow : List SummaryEntry → Sensor × Measurement → List SummaryEntry
  | [], row =>
    [SummaryEntry.mk row.1.key row.1.name row.1.model row.1.location
      [serialize_measurement row.2]]
  | e :: es, row =>
    if e.key == row.1.key then addMetricToEntry e row.2 :: es
    else e :: addSummaryRow es row

/-- The reducer `build_summary_payload` from `backend/api.py`, folding the scanned
rows in order. -/
def build_summary_payload (rows : List (Sensor × Measurement)) : List SummaryEntry :=
  rows.foldl addSummaryRow []

/-- The scan window of the summary endpoint: all measurements ordered by
`recorded_at` descending, capped at `min(limit, 2000)`. -/
def summary_scan (store : Store) (limit : Int) : List (Sensor × Measurement) :=
  sqlLimit (min limit 2000) (sortDesc (joined store))

/-- The `get_summary` handler after parameter parsing. -/
def get_summary (store : Store) (limit : Int) : List SummaryEntry :=
  build_summary_payload (summary_scan store limit)

/-- Look up the reported value for a `(sensor key, metric)` pair in a
summary payload. -/
def summary_lookup (entries : List SummaryEntry) (k mt : String) : Option SerMeas :=
  (entries.find? (fun e => e.key == k)).bind
    (fun e => e.metrics.find? (fun x => x.metric == mt))

/-- The normalized readings of a batch that pass validation at time `now`. -/
def normsOf (now : Int) (rs : List RawReading) : List NormReading :=
  rs.filterMap (fun r => (normalize_reading now r).toOption)

/-- The serialized view a normalized reading must produce once stored and
queried back. -/
def projN (n : NormReading) : SerMeasFull :=
  SerMeasFull.mk n.metric n.value n.unit n.recorded_at n.sensor_key

/-- The serialized joined rows of a store, in insertion order. -/
def jproj (store : Store) : List SerMeasFull :=
  (joined store).map (fun row => serialize_with_sensor row.1 row.2)

/-- Store well-formedness maintained by the ingestion path: sensor ids stay
below the autoincrement counter, are pairwise distinct, and every
measurement's foreign key resolves. -/
def StoreOK (store : Store) : Prop :=
  (∀ s ∈ store.sensors, s.id < store.next_sensor_id) ∧
  store.sensors.Pairwise (fun a b => a.id ≠ b.id) ∧
  (∀ m ∈ store.measurements, ∃ s ∈ store.sensors, s.id = m.sensor_id)

/-- A reading produced by a sensor adapter on the agent
(`agent.SensorReading`). -/
structure SensorReading where
  sensor_key : String
  metric : String
  value : PyFloat
  unit : String
  recorded_at : String
  sensor_name : Option String
  sensor_model : Option String
  sensor_location : Option String
  poll_interval_sec : Option Int
deriving DecidableEq

/-- Scheduler state for one polling task (`agent.SensorTask` together with
its sensor's `interval_sec`); times live on the same linear scale as the
server. -/
structure SensorTask where
  interval_sec : Int
  next_run : Int
deriving DecidableEq

/-- The environment a tick runs against: per task index, the outcome of
the sensor capability `read()` and of the transport `post_readings` call,
either of which may raise. -/
structure TickEnv where
  read : Nat → Except String (List SensorReading)
  post : Nat → Except String Unit

/-- Observable events of a tick, used to state which capabilities were
invoked. -/
inductive AgentEvent where
  | readInvoked (i : Nat)
  | postInvoked (i : Nat)
  | failureLogged (i : Nat)
deriving DecidableEq

/-- The `try`-block body for one due task: call `read()`; when it returns
a non-empty batch, call `post_readings`.  Returns the events that happened
together with the exception escaping the block, if any. -/
def taskAttempt (env : TickEnv) (i : Nat) : List AgentEvent × Option String :=
  match env.read i with
  | Except.error e => ([AgentEvent.readInvoked i], some e)
  | Except.ok batch =>
    if batch.isEmpty then ([AgentEvent.readInvoked i], none)
    else
      match env.post i with
      | Except.error e => ([AgentEvent.readInvoked i, AgentEvent.postInvoked i], some e)
      | Except.ok _ => ([AgentEvent.readInvoked i, AgentEvent.postInvoked i], none)

/-- One due task with its `except Exception` handler: any exception is
logged and swallowed. -/
def runTask (env : TickEnv) (i : Nat) : List AgentEvent :=
  let att := taskAttempt env i
  match att.2 with
  | some _ => att.1 ++ [AgentEvent.failureLogged i]
  | none => att.1

/-- The per-task walk of one tick of `poll_loop`, starting from task index
`i`: a due task (`now >= next_run`) is run and rescheduled to
`now + interval_sec`; others are untouched. -/
def poll_tick_go (env : TickEnv) (now : Int) : Nat → List SensorTask →
    List SensorTask × List AgentEvent
  | _, [] => ([], [])
  | i, t :: ts =>
    let step :=
      if t.next_run ≤ now then
        (SensorTask.mk t.interval_sec (now + t.interval_sec), runTask env i)
      else (t, ([] : List AgentEvent))
    let rest := poll_tick_go env now (i + 1) ts
    (step.1 :: rest.1, step.2 ++ rest.2)

/-- One full tick of `poll_loop`: `now` is sampled once at the top and used
both for the due test and for rescheduling every task processed this
tick. -/
def poll_tick (env : TickEnv) (now : Int) (tasks : List SensorTask) :
    List SensorTask × List AgentEvent :=
  poll_tick_go env now 0 tasks

/-- Run `n` consecutive ticks of the loop, with a possibly different
environment and clock sample per tick; total by construction because every
tick swallows its tasks' exceptions. -/
def poll_loop_run (envs : Nat → TickEnv) (nows : Nat → Int) :
    Nat → List SensorTask → List SensorTask
  | 0, tasks => tasks
  | n + 1, tasks =>
    poll_loop_run (fun j => envs (j + 1)) (fun j => nows (j + 1)) n
      (poll_tick (envs 0) (nows 0) tasks).1

/-- The range-query row filter re-expressed on serialized rows; it agrees
with `matchesQuery` through `serialize_with_sensor`. -/
def matchesSer (k mt : String) (sdt edt : Option Int) (x : SerMeasFull) : Bool :=
  x.sensor_key == k && x.metric == mt &&
    (match sdt with
     | some t => decide (t ≤ x.recorded_at)
     | none => true) &&
    (match edt with
     | some t => decide (x.recorded_at ≤ t)
     | none => true)

instance : IsTotal (Sensor × Measurement) (fun a b => recKey a ≤ recKey b) :=
  ⟨fun a b => Int.le_total (recKey a) (recKey b)⟩

instance : IsTrans (Sensor × Measurement) (fun a b => recKey a ≤ recKey b) :=
  ⟨fun _ _ _ hab hbc => Int.le_trans hab hbc⟩

instance : IsTotal (Sensor × Measurement) (fun a b => recKey b ≤ recKey a) :=
  ⟨fun a b => Int.le_total (recKey b) (recKey a)⟩

instance : IsTrans (Sensor × Measurement) (fun a b => recKey b ≤ recKey a) :=
  ⟨fun _ _ _ hab hbc => Int.le_trans hbc hab⟩

/-! ### Concrete instances used by witnesses and counterexamples -/

/-- An environment where task 0's read raises and task 1's read returns a
batch, used to witness failure isolation. -/
def envFirstFails : TickEnv :=
  TickEnv.mk
    (fun i => if i = 0 then Except.error "sensor failure"
      else Except.ok [SensorReading.mk "ambient" "temperature" (PyFloat.finite 25)
        "c" "2026-01-01T00:00:00+00:00" none none none none])
    (fun _ => Except.ok ())

/-- A fully valid reading for key `probe_x` with value `21.5`. -/
def rValid : RawReading :=
  RawReading.mk (some "probe_x") (some "temperature")
    (PyVal.vFloat (PyFloat.finite (43 / 2))) (some "c") none none none none none

/-- A reading whose value cannot be coerced to a number. -/
def rBadValue : RawReading :=
  RawReading.mk (some "probe_x") (some "temperature") (PyVal.vStr "bad")
    (some "c") none none none none none

/-- A reading with an empty unit and a non-finite (`inf`) value: it
violates the spec's validation requirements yet passes the code's. -/
def rInfEmptyUnit : RawReading :=
  RawReading.mk (some "d") (some "m") (PyVal.vFloat PyFloat.inf) (some "")
    none none none none none

/-- A reading whose (empty) metric fails validation. -/
def rEmptyMetric : RawReading :=
  RawReading.mk (some "d") (some "") (PyVal.vInt 1) (some "c")
    none none none none none

/-- A provisioning reading that supplies a negative poll interval. -/
def rNegInterval : RawReading :=
  RawReading.mk (some "d") (some "m") (PyVal.vInt 5) (some "c")
    none none none none (some (-5))

/-- A provisioning reading that supplies a nonnegative poll interval. -/
def rPosInterval : RawReading :=
  RawReading.mk (some "d") (some "m") (PyVal.vInt 5) (some "c")
    none none none none (some 30)

/-- A normalized reading whose supplied display name is the empty string. -/
def nEmptyName : NormReading :=
  NormReading.mk "probe_one" (some "") none none none "temperature"
    (PyFloat.finite 1) "c" 0

/-- A normalized reading with a full set of supplied metadata. -/
def nFullMeta : NormReading :=
  NormReading.mk "probe_two" (some "Warm Probe") (some "DS18B20")
    (some "Warm hide") none "temperature" (PyFloat.finite 2) "c" 0

/-- A second valid reading for the same key/metric as `rValid`. -/
def rValid2 : RawReading :=
  RawReading.mk (some "probe_x") (some "temperature")
    (PyVal.vFloat (PyFloat.finite 27)) (some "c") none none none none none

/-- A valid reading for a different metric. -/
def rValidHum : RawReading :=
  RawReading.mk (some "probe_x") (some "humidity")
    (PyVal.vFloat (PyFloat.finite 55)) (some "pct") none none none none none

/-- A store with one sensor and three measurements of the same key and
metric at times `1 < 2 < 3`, used to witness the range-query claim. -/
def storeThree : Store :=
  Store.mk [Sensor.mk 1 "d" "D" none none true 60 "f"]
    [Measurement.mk 1 "m" (PyFloat.finite 24) "c" 2,
     Measurement.mk 1 "m" (PyFloat.finite 23) "c" 1,
     Measurement.mk 1 "m" (PyFloat.finite 25) "c" 3]
    2

/-- A store for the summary witness: two temperature readings and one
humidity reading on one sensor. -/
def storeSummary : Store :=
  Store.mk [Sensor.mk 1 "ambient_bme280" "Ambient Air" none none true 60 "f"]
    [Measurement.mk 1 "temperature" (PyFloat.finite 24) "c" 10,
     Measurement.mk 1 "humidity" (PyFloat.finite 55) "pct" 13,
     Measurement.mk 1 "temperature" (PyFloat.finite (51 / 2)) "c" 15]
    2

/-- A store holding one already-provisioned sensor, used to witness the
frame claim about ingestion into an existing device. -/
def storeExisting : Store :=
  Store.mk [Sensor.mk 1 "probe_x" "Probe X" (some "DS18B20") none true 60 "f"] [] 2

/-! ### Scheduler lemmas -/

/-- Every run of the `try`/`except` body records that `read()` was
invoked, whatever the outcomes. -/
theorem readInvoked_mem_runTask (env : TickEnv) (i : Nat) :
    AgentEvent.readInvoked i ∈ runTask env i := by
  unfold runTask taskAttempt
  cases env.read i with
  | error e => simp
  | ok batch =>
    cases hb : batch.isEmpty <;> cases hp : env.post i <;> simp [hb, hp]

/-- The task list a tick produces, as a pointwise map: due tasks are
rescheduled to `now + interval_sec`, the rest are untouched. -/
theorem poll_tick_go_fst (env : TickEnv) (now : Int) :
    ∀ (ts : List SensorTask) (i : Nat),
      (poll_tick_go env now i ts).1 =
        ts.map (fun t =>
          if t.next_run ≤ now then SensorTask.mk t.interval_sec (now + t.interval_sec)
          else t) := by
  intro ts
  induction ts with
  | nil => intro i; simp [poll_tick_go]
  | cons t rest ih =>
    intro i
    by_cases h : t.next_run ≤ now <;> simp [poll_tick_go, h, ih (i + 1)]

/-- A due task's `read()` is invoked during the tick, at its own index,
regardless of every other outcome in the environment. -/
theorem poll_tick_go_read_invoked (env : TickEnv) (now : Int) :
    ∀ (ts : List SensorTask) (i j : Nat) (h : j < ts.length),
      (ts.get ⟨j, h⟩).next_run ≤ now →
      AgentEvent.readInvoked (i + j) ∈ (poll_tick_go env now i ts).2 := by
  intro ts
  induction ts with
  | nil => intro i j h; exact absurd h (by simp)
  | cons t rest ih =>
    intro i j h hdue
    cases j with
    | zero =>
      simp only [List.get] at hdue
      simp only [poll_tick_go, hdue, if_pos, Nat.add_zero, List.mem_append]
      exact Or.inl (readInvoked_mem_runTask env i)
    | succ j' =>
      simp only [List.get] at hdue
      have hrec := ih (i + 1) j' (Nat.lt_of_succ_lt_succ h) hdue
      have harith : i + 1 + j' = i + (j' + 1) := by omega
      rw [harith] at hrec
      by_cases hd : t.next_run ≤ now <;>
        simp only [poll_tick_go, hd, if_pos, if_neg, List.mem_append] <;>
        exact Or.inr hrec

/-- A tick never changes the number of tasks. -/
theorem poll_tick_length (env : TickEnv) (now : Int) (tasks : List SensorTask) :
    (poll_tick env now tasks).1.length = tasks.length := by
  unfold poll_tick
  rw [poll_tick_go_fst]
  exact List.length_map _ _

/-- Any number of ticks leaves the loop with its full task list: no
environment of failures can terminate it or drop a task. -/
theorem poll_loop_run_length (envs : Nat → TickEnv) (nows : Nat → Int) :
    ∀ (n : Nat) (tasks : List SensorTask),
      (poll_loop_run envs nows n tasks).length = tasks.length := by
  intro n
  induction n generalizing envs nows with
  | zero => intro tasks; simp [poll_loop_run]
  | succ n ih =>
    intro tasks
    simp only [poll_loop_run]
    rw [ih, poll_tick_length]

/-- C7: every task due on a tick (`next_due <= now` for the `now` sampled
at the start of the tick) is rescheduled to `now + interval_sec` — not to
`previous_next_due + interval_sec` — and this holds for every environment,
i.e. whether its read or post succeeded or failed; non-due tasks are
untouched. -/
theorem claim_C7_drift_absorbed_reschedule (env : TickEnv) (now : Int)
    (tasks : List SensorTask) :
    (poll_tick env now tasks).1 =
      tasks.map (fun t =>
        if t.next_run ≤ now then SensorTask.mk t.interval_sec (now + t.interval_sec)
        else t) := by
  unfold poll_tick
  exact poll_tick_go_fst env now tasks 0

/-- C8: whatever exceptions the environment makes the reads or posts of
other tasks raise, every due task's `read()` is still invoked on the tick,
and the polling loop keeps running over its full task list for any number
of further ticks. -/
theorem claim_C8_failure_isolation (env : TickEnv) (now : Int)
    (tasks : List SensorTask) (i : Nat) (h : i < tasks.length)
    (hdue : (tasks.get ⟨i, h⟩).next_run ≤ now) :
    AgentEvent.readInvoked i ∈ (poll_tick env now tasks).2 ∧
    ∀ (envs : Nat → TickEnv) (nows : Nat → Int) (n : Nat),
      (poll_loop_run envs nows n tasks).length = tasks.length := by
  constructor
  · have := poll_tick_go_read_invoked env now tasks 0 i h hdue
    simpa [poll_tick] using this
  · intro envs nows n
    exact poll_loop_run_length envs nows n tasks

/-- Witness for C8: with two tasks both due at `now = 100` and task 0's
read raising, task 1's read is still invoked on the tick. -/
theorem claim_C8_failure_isolation_witness :
    AgentEvent.readInvoked 1 ∈
      (poll_tick envFirstFails 100 [SensorTask.mk 10 0, SensorTask.mk 30 0]).2 ∧
    ∀ (envs : Nat → TickEnv) (nows : Nat → Int) (n : Nat),
      (poll_loop_run envs nows n [SensorTask.mk 10 0, SensorTask.mk 30 0]).length =
        [SensorTask.mk 10 0, SensorTask.mk 30 0].length :=
  claim_C8_failure_isolation envFirstFails 100 [SensorTask.mk 10 0, SensorTask.mk 30 0]
    1 (by decide) (by decide)

/-! ### Ingestion lemmas and claims -/

theorem normalize_ok_spec (now : Int) (r : RawReading) (n : NormReading)
    (h : normalize_reading now r = Except.ok n) :
    r.sensor_key = some n.sensor_key ∧ r.metric = some n.metric ∧
    r.unit = some n.unit ∧ n.sensor_name = r.sensor_name ∧
    n.sensor_model = r.sensor_model ∧ n.sensor_location = r.sensor_location ∧
    n.poll_interval_sec = r.poll_interval_sec ∧
    pyFloatCoerce r.value = some n.value := by
  unfold normalize_reading at h
  split at h
  · split at h
    · cases h
    · split at h
      · cases h
      · split at h
        · split at h
          · cases h
            simp_all
          · cases hp : parse_iso8601 _ <;> rw [hp] at h <;>
              simp only [Except.map] at h
            · cases h
            · cases h
              simp_all
        · cases h
          simp_all
  · cases h


theorem normalize_error_of_violation (now : Int) (r : RawReading)
    (hviol : truthyOptStr r.sensor_key = false ∨ truthyOptStr r.metric = false ∨
      r.value = PyVal.vNone ∨ pyFloatCoerce r.value = none ∨ r.unit = none) :
    ∃ msg, normalize_reading now r = Except.error msg := by
  unfold normalize_reading
  cases hk : r.sensor_key with
  | none => exact ⟨_, rfl⟩
  | some k =>
    cases hm : r.metric with
    | none => exact ⟨_, rfl⟩
    | some mt =>
      cases hu : r.unit with
      | none => exact ⟨_, rfl⟩
      | some u =>
        simp only [hk, hm, hu, truthyOptStr, bne_eq_false_iff_eq,
          Option.some.injEq, reduceCtorEq, or_false] at hviol
        by_cases hcond : k = "" ∨ mt = "" ∨ r.value = PyVal.vNone
        · exact ⟨"sensor_key, metric, value, and unit are required", by simp [hcond]⟩
        · have hc : pyFloatCoerce r.value = none := by
            rcases hviol with h1 | h2 | h3 | h4
            · exact absurd (Or.inl h1) hcond
            · exact absurd (Or.inr (Or.inl h2)) hcond
            · exact absurd (Or.inr (Or.inr h3)) hcond
            · exact h4
          exact ⟨"value must be a number", by simp [hcond, hc]⟩

theorem ingest_loop_badRequest_of_mem_error (now : Int) :
    ∀ (rs : List RawReading) (store : Store) (c : Nat) (r : RawReading),
      r ∈ rs → (∃ msg, normalize_reading now r = Except.error msg) →
      ∃ msg, (ingest_loop now rs store c).1 = ApiResult.badRequest msg := by
  intro rs
  induction rs with
  | nil => intro _ _ r hr _; cases hr
  | cons a rest ih =>
    intro store c r hr herr
    cases hn : normalize_reading now a with
    | error m => exact ⟨m, by simp [ingest_loop, hn]⟩
    | ok d =>
      rcases List.mem_cons.mp hr with rfl | hmem
      · obtain ⟨msg, hmsg⟩ := herr
        rw [hn] at hmsg
        cases hmsg
      · simp only [ingest_loop, hn]
        exact ih _ _ r hmem herr

/-- C3 (amended): validation requires a truthy (non-empty) device key, a
truthy metric, a value that is present and coerces to a number (finiteness
is not checked), and a unit that is present (it may be empty); a batch
containing a record violating one of these makes the request fail with a
validation error. -/
theorem claim_C3_validation_amended (now : Int) (store : Store)
    (rs : List RawReading) (r : RawReading) (hr : r ∈ rs)
    (hviol : truthyOptStr r.sensor_key = false ∨ truthyOptStr r.metric = false ∨
      r.value = PyVal.vNone ∨ pyFloatCoerce r.value = none ∨ r.unit = none) :
    ∃ msg, (post_measurements now store (some rs)).1 = ApiResult.badRequest msg := by
  cases rs with
  | nil => cases hr
  | cons a rest =>
    have := ingest_loop_badRequest_of_mem_error now (a :: rest) store 0 r hr
      (normalize_error_of_violation now r hviol)
    simpa [post_measurements] using this

theorem claim_C3_validation_amended_witness :
    rEmptyMetric ∈ [rEmptyMetric] ∧ truthyOptStr rEmptyMetric.metric = false ∧
    ∃ msg, (post_measurements 0 emptyStore (some [rEmptyMetric])).1 =
      ApiResult.badRequest msg :=
  ⟨by decide, by decide,
    claim_C3_validation_amended 0 emptyStore [rEmptyMetric] rEmptyMetric (by decide)
      (Or.inr (Or.inl (by decide)))⟩

/-- C3 counterexample: a record with an empty unit and a non-finite value
is ingested successfully instead of failing validation. -/
theorem claim_C3_counterexample :
    rInfEmptyUnit.unit = some "" ∧ rInfEmptyUnit.value = PyVal.vFloat PyFloat.inf ∧
    (post_measurements 0 emptyStore (some [rInfEmptyUnit])).1 = ApiResult.ok 1 := by
  decide

/-- C1: evaluating the endpoint at a batch whose second record fails
validation: the response is the 400 validation error, yet the first
record's measurement and its auto-provisioned sensor row are persisted
(the early return exits `session_scope` normally, which commits). -/
theorem claim_C1_partial_commit_bug :
    (post_measurements 0 emptyStore (some [rValid, rBadValue])).1 =
      ApiResult.badRequest "value must be a number" ∧
    (post_measurements 0 emptyStore (some [rValid, rBadValue])).2.measurements.length = 1 ∧
    (post_measurements 0 emptyStore (some [rValid, rBadValue])).2.sensors.map Sensor.key =
      ["probe_x"] := by
  decide

/-- C9 counterexample: auto-provisioning a device from a reading that
supplies `poll_interval_sec = -5` stores the negative interval verbatim. -/
theorem claim_C9_counterexample :
    (post_measurements 0 emptyStore (some [rNegInterval])).2.sensors.map
      Sensor.poll_interval_sec = [-5] ∧ ¬ (0 : Int) < -5 := by
  decide

theorem ingest_loop_poll_positive (now : Int) :
    ∀ (rs : List RawReading) (store : Store) (c : Nat),
      (∀ s ∈ store.sensors, 0 < s.poll_interval_sec) →
      (∀ r ∈ rs, ∀ p, r.poll_interval_sec = some p → 0 ≤ p) →
      ∀ s ∈ (ingest_loop now rs store c).2.sensors, 0 < s.poll_interval_sec := by
  intro rs
  induction rs with
  | nil => intro store c hstore _; simpa [ingest_loop] using hstore
  | cons a rest ih =>
    intro store c hstore hrs
    cases hn : normalize_reading now a with
    | error m => simpa [ingest_loop, hn] using hstore
    | ok d =>
      simp only [ingest_loop, hn]
      apply ih
      · unfold get_or_create_sensor
        cases hfind : store.sensors.find? (fun s => s.key == d.sensor_key) with
        | some s => simpa using hstore
        | none =>
          simp only []
          intro s hs
          rcases List.mem_append.mp hs with hold | hnew
          · exact hstore s hold
          · have hd : d.poll_interval_sec = a.poll_interval_sec :=
              (normalize_ok_spec now a d hn).2.2.2.2.2.2.1
            have hpos : 0 < pyOrInt d.poll_interval_sec 60 := by
              rw [hd]
              cases hp : a.poll_interval_sec with
              | none => simp [pyOrInt]
              | some p =>
                have := hrs a (List.mem_cons_self a rest) p hp
                by_cases hz : p = 0
                · simp [pyOrInt, hz]
                · simp [pyOrInt, hz]
                  omega
            rcases List.mem_singleton.mp hnew with rfl
            simpa using hpos
      · intro r hmem p hp
        exact hrs r (List.mem_cons_of_mem a hmem) p hp

/-- C9 (amended): provided every provisioning reading supplies either no
`poll_interval_sec` or a nonnegative one, every sensor row after any
ingestion request has a positive `poll_interval_sec`; a supplied negative
interval, however, is stored verbatim. -/
theorem claim_C9_amended (now : Int) (store : Store) (body : Option (List RawReading))
    (hstore : ∀ s ∈ store.sensors, 0 < s.poll_interval_sec)
    (hbody : ∀ rs, body = some rs → ∀ r ∈ rs, ∀ p, r.poll_interval_sec = some p → 0 ≤ p) :
    ∀ s ∈ (post_measurements now store body).2.sensors, 0 < s.poll_interval_sec := by
  cases body with
  | none => simpa [post_measurements] using hstore
  | some rs =>
    cases rs with
    | nil => simpa [post_measurements] using hstore
    | cons a rest =>
      simpa [post_measurements] using
        ingest_loop_poll_positive now (a :: rest) store 0 hstore (hbody _ rfl)

theorem claim_C9_amended_witness :
    (∀ s ∈ emptyStore.sensors, 0 < s.poll_interval_sec) ∧
    ∀ s ∈ (post_measurements 0 emptyStore (some [rPosInterval])).2.sensors,
      0 < s.poll_interval_sec :=
  ⟨by decide,
    claim_C9_amended 0 emptyStore (some [rPosInterval]) (by decide)
      (by intro rs hrs r hmem p hp
          cases hrs
          rcases List.mem_singleton.mp hmem with rfl
          cases hp
          decide)⟩


/-- C6 (amended): auto-creating a device for an unseen key uses the
supplied display name when it is present and non-empty, and otherwise (name
absent or empty) the key with underscores replaced by spaces and
title-cased; model and location are carried verbatim from the reading, and
`poll_interval_sec` defaults to 60 when not supplied.  The new row is
appended and no measurement is touched. -/
theorem claim_C6_autocreate_amended (store : Store) (data : NormReading)
    (hfresh : store.sensors.find? (fun s => s.key == data.sensor_key) = none) :
    (get_or_create_sensor store data).1.key = data.sensor_key ∧
    (∀ nm, data.sensor_name = some nm → nm ≠ "" →
      (get_or_create_sensor store data).1.name = nm) ∧
    ((data.sensor_name = none ∨ data.sensor_name = some "") →
      (get_or_create_sensor store data).1.name = keyToDisplayName data.sensor_key) ∧
    (get_or_create_sensor store data).1.model = data.sensor_model ∧
    (get_or_create_sensor store data).1.location = data.sensor_location ∧
    (data.poll_interval_sec = none →
      (get_or_create_sensor store data).1.poll_interval_sec = 60) ∧
    (get_or_create_sensor store data).2.sensors =
      store.sensors ++ [(get_or_create_sensor store data).1] ∧
    (get_or_create_sensor store data).2.measurements = store.measurements := by
  unfold get_or_create_sensor
  rw [hfresh]
  refine ⟨rfl, ?_, ?_, rfl, rfl, ?_, rfl, rfl⟩
  · intro nm hnm hne
    simp [pyOrStr, hnm, hne]
  · intro hcase
    rcases hcase with hnone | hempty
    · simp [pyOrStr, hnone]
    · simp [pyOrStr, hempty]
  · intro hnone
    simp [pyOrInt, hnone]

theorem claim_C6_autocreate_amended_witness :
    emptyStore.sensors.find? (fun s => s.key == nFullMeta.sensor_key) = none ∧
    ((get_or_create_sensor emptyStore nFullMeta).1.key = nFullMeta.sensor_key ∧
    (∀ nm, nFullMeta.sensor_name = some nm → nm ≠ "" →
      (get_or_create_sensor emptyStore nFullMeta).1.name = nm) ∧
    ((nFullMeta.sensor_name = none ∨ nFullMeta.sensor_name = some "") →
      (get_or_create_sensor emptyStore nFullMeta).1.name =
        keyToDisplayName nFullMeta.sensor_key) ∧
    (get_or_create_sensor emptyStore nFullMeta).1.model = nFullMeta.sensor_model ∧
    (get_or_create_sensor emptyStore nFullMeta).1.location = nFullMeta.sensor_location ∧
    (nFullMeta.poll_interval_sec = none →
      (get_or_create_sensor emptyStore nFullMeta).1.poll_interval_sec = 60) ∧
    (get_or_create_sensor emptyStore nFullMeta).2.sensors =
      emptyStore.sensors ++ [(get_or_create_sensor emptyStore nFullMeta).1] ∧
    (get_or_create_sensor emptyStore nFullMeta).2.measurements =
      emptyStore.measurements) :=
  ⟨by decide, claim_C6_autocreate_amended emptyStore nFullMeta (by decide)⟩

/-- C6 counterexample: a reading whose supplied display name is present
but empty does not get that name — the key-derived default is used. -/
theorem claim_C6_counterexample :
    nEmptyName.sensor_name = some "" ∧
    (get_or_create_sensor emptyStore nEmptyName).1.name = "Probe One" ∧
    (get_or_create_sensor emptyStore nEmptyName).1.name ≠ "" := by
  decide

/-- C10: ingesting a single reading whose key already has a device row
leaves the sensors table (hence that device's name, model, location and
poll interval) unchanged and appends exactly the one measurement. -/
theorem claim_C10_existing_device_frame (now : Int) (store : Store) (r : RawReading)
    (n : NormReading) (s : Sensor)
    (hn : normalize_reading now r = Except.ok n)
    (hs : store.sensors.find? (fun x => x.key == n.sensor_key) = some s) :
    post_measurements now store (some [r]) =
      (ApiResult.ok 1,
        Store.mk store.sensors
          (store.measurements ++ [Measurement.mk s.id n.metric n.value n.unit n.recorded_at])
          store.next_sensor_id) := by
  simp only [post_measurements, ingest_loop, hn, get_or_create_sensor, hs]

theorem claim_C10_existing_device_frame_witness :
    normalize_reading 0 rValid = Except.ok (NormReading.mk "probe_x" none none none none
      "temperature" (PyFloat.finite (43 / 2)) "c" 0) ∧
    post_measurements 0 storeExisting (some [rValid]) =
      (ApiResult.ok 1,
        Store.mk storeExisting.sensors
          (storeExisting.measurements ++
            [Measurement.mk 1 "temperature" (PyFloat.finite (43 / 2)) "c" 0])
          storeExisting.next_sensor_id) :=
  ⟨by rfl,
    claim_C10_existing_device_frame 0 storeExisting rValid
      (NormReading.mk "probe_x" none none none none "temperature"
        (PyFloat.finite (43 / 2)) "c" 0)
      (Sensor.mk 1 "probe_x" "Probe X" (some "DS18B20") none true 60 "f")
      (by rfl) (by decide)⟩

/-! ### Range-query lemmas and claim C4 -/

theorem sortAsc_perm (l : List (Sensor × Measurement)) : (sortAsc l).Perm l :=
  List.perm_insertionSort _ l

theorem sortDesc_perm (l : List (Sensor × Measurement)) : (sortDesc l).Perm l :=
  List.perm_insertionSort _ l

theorem sortAsc_pairwise (l : List (Sensor × Measurement)) :
    (sortAsc l).Pairwise (fun a b => recKey a ≤ recKey b) :=
  List.sorted_insertionSort _ l

theorem sortDesc_pairwise (l : List (Sensor × Measurement)) :
    (sortDesc l).Pairwise (fun a b => recKey b ≤ recKey a) :=
  List.sorted_insertionSort _ l

theorem sqlLimit_length_le {α : Type} (n : Int) (hn : 0 ≤ n) (l : List α) :
    (sqlLimit n l).length ≤ n.toNat := by
  simp only [sqlLimit, if_neg (not_lt.mpr hn)]
  rw [List.length_take]
  exact Nat.min_le_left _ _

theorem sqlLimit_of_length_le {α : Type} (n : Int) (hn : 0 ≤ n) (l : List α)
    (h : l.length ≤ n.toNat) : sqlLimit n l = l := by
  simp only [sqlLimit, if_neg (not_lt.mpr hn)]
  exact List.take_of_length_le h

theorem sqlLimit_sublist {α : Type} (n : Int) (l : List α) : (sqlLimit n l).Sublist l := by
  unfold sqlLimit
  by_cases h : n < 0
  · simp [h]
  · simp only [h, if_false]
    exact List.take_sublist _ _

theorem matchesQuery_eq_matchesSer (k mt : String) (sdt edt : Option Int)
    (row : Sensor × Measurement) :
    matchesQuery k mt sdt edt row =
      matchesSer k mt sdt edt (serialize_with_sensor row.1 row.2) := rfl

theorem core_perm_filter (store : Store) (k mt : String) (sdt edt : Option Int)
    (lim : Int) (ord : String) (hlim : 0 ≤ lim)
    (hno : (((joined store).filter (matchesQuery k mt sdt edt)).length ≤
      (min lim 10000).toNat)) :
    (get_measurements_core store k mt sdt edt lim ord).Perm
      ((jproj store).filter (matchesSer k mt sdt edt)) := by
  have hmin : (0 : Int) ≤ min lim 10000 := le_min hlim (by norm_num)
  unfold get_measurements_core
  set filtered := (joined store).filter (matchesQuery k mt sdt edt) with hf
  have hrw : ∀ l : List (Sensor × Measurement),
      l.Perm filtered →
      ((l.map (fun row => serialize_with_sensor row.1 row.2)).Perm
        ((jproj store).filter (matchesSer k mt sdt edt))) := by
    intro l hl
    have : (jproj store).filter (matchesSer k mt sdt edt) =
        filtered.map (fun row => serialize_with_sensor row.1 row.2) := by
      unfold jproj
      rw [List.filter_map]
      rfl
    rw [this]
    exact hl.map _
  by_cases hord : ord = "desc"
  · simp only [hord, if_pos]
    have hperm := sortDesc_perm filtered
    have hlen : (sortDesc filtered).length = filtered.length := hperm.length_eq
    rw [sqlLimit_of_length_le _ hmin _ (by rw [hlen]; exact hno)]
    exact hrw _ hperm
  · simp only [hord, if_false]
    have hperm := sortAsc_perm filtered
    have hlen : (sortAsc filtered).length = filtered.length := hperm.length_eq
    rw [sqlLimit_of_length_le _ hmin _ (by rw [hlen]; exact hno)]
    exact hrw _ hperm

/-- C4: the range query with both bounds present keeps rows inside the
inclusive bounds only (with `start = end = t` it returns exactly the
serialized readings recorded at `t`, up to order), orders ascending by
`recorded_at` unless `order = "desc"` (then descending), and returns at
most `min(limit, 10000)` rows. -/
theorem claim_C4_range_query (store : Store) (k mt : String) (sdt edt : Option Int)
    (t : Int) (lim : Int) (ord : String) (hlim : 0 ≤ lim) :
    ((get_measurements_core store k mt sdt edt lim ord).length ≤ (min lim 10000).toNat) ∧
    ((((joined store).filter (matchesQuery k mt sdt edt)).length ≤ (min lim 10000).toNat) →
      (get_measurements_core store k mt sdt edt lim ord).Perm
        ((jproj store).filter (matchesSer k mt sdt edt))) ∧
    (ord = "desc" →
      (get_measurements_core store k mt sdt edt lim ord).Pairwise
        (fun x y => y.recorded_at ≤ x.recorded_at)) ∧
    (ord ≠ "desc" →
      (get_measurements_core store k mt sdt edt lim ord).Pairwise
        (fun x y => x.recorded_at ≤ y.recorded_at)) ∧
    ((((joined store).filter (matchesQuery k mt (some t) (some t))).length ≤
        (min lim 10000).toNat) →
      (get_measurements_core store k mt (some t) (some t) lim ord).Perm
        ((jproj store).filter (fun x => x.sensor_key == k && x.metric == mt &&
          decide (x.recorded_at = t)))) := by
  have hmin : (0 : Int) ≤ min lim 10000 := le_min hlim (by norm_num)
  refine ⟨?_, ?_, ?_, ?_, ?_⟩
  · unfold get_measurements_core
    rw [List.length_map]
    exact sqlLimit_length_le _ hmin _
  · exact core_perm_filter store k mt sdt edt lim ord hlim
  · intro hord
    unfold get_measurements_core
    simp only [hord, if_pos]
    rw [List.pairwise_map]
    exact List.Pairwise.sublist (sqlLimit_sublist _ _) (sortDesc_pairwise _)
  · intro hord
    unfold get_measurements_core
    simp only [hord, if_false]
    rw [List.pairwise_map]
    exact List.Pairwise.sublist (sqlLimit_sublist _ _) (sortAsc_pairwise _)
  · intro hno
    have hperm := core_perm_filter store k mt (some t) (some t) lim ord hlim hno
    have hfe : (jproj store).filter (matchesSer k mt (some t) (some t)) =
        (jproj store).filter (fun x => x.sensor_key == k && x.metric == mt &&
          decide (x.recorded_at = t)) := by
      apply List.filter_congr
      intro x _
      unfold matchesSer
      by_cases h1 : x.sensor_key == k <;> by_cases h2 : x.metric == mt <;>
        simp [h1, h2, Int.le_antisymm_iff, and_comm, eq_comm]
    rw [hfe] at hperm
    exact hperm


theorem claim_C4_range_query_witness :
    (0 : Int) ≤ 1440 ∧
    (((get_measurements_core storeThree "d" "m" (some 1) (some 3) 1440 "asc").length ≤
      (min (1440 : Int) 10000).toNat) ∧
    ((((joined storeThree).filter (matchesQuery "d" "m" (some 1) (some 3))).length ≤
        (min (1440 : Int) 10000).toNat) →
      (get_measurements_core storeThree "d" "m" (some 1) (some 3) 1440 "asc").Perm
        ((jproj storeThree).filter (matchesSer "d" "m" (some 1) (some 3)))) ∧
    ("asc" = "desc" →
      (get_measurements_core storeThree "d" "m" (some 1) (some 3) 1440 "asc").Pairwise
        (fun x y => y.recorded_at ≤ x.recorded_at)) ∧
    ("asc" ≠ "desc" →
      (get_measurements_core storeThree "d" "m" (some 1) (some 3) 1440 "asc").Pairwise
        (fun x y => x.recorded_at ≤ y.recorded_at)) ∧
    ((((joined storeThree).filter (matchesQuery "d" "m" (some 2) (some 2))).length ≤
        (min (1440 : Int) 10000).toNat) →
      (get_measurements_core storeThree "d" "m" (some 2) (some 2) 1440 "asc").Perm
        ((jproj storeThree).filter (fun x => x.sensor_key == "d" && x.metric == "m" &&
          decide (x.recorded_at = 2))))) :=
  ⟨by decide, claim_C4_range_query storeThree "d" "m" (some 1) (some 3) 2 1440 "asc" (by decide)⟩

/-! ### Summary lemmas and claim C5 -/

theorem summary_lookup_cons (e : SummaryEntry) (es : List SummaryEntry) (k mt : String) :
    summary_lookup (e :: es) k mt =
      if e.key == k then e.metrics.find? (fun x => x.metric == mt)
      else summary_lookup es k mt := by
  unfold summary_lookup
  cases h : e.key == k <;> simp [List.find?, h]

theorem addMetricToEntry_key (e : SummaryEntry) (m : Measurement) :
    (addMetricToEntry e m).key = e.key := by
  unfold addMetricToEntry
  split <;> rfl

theorem addMetricToEntry_find (e : SummaryEntry) (m : Measurement) (mt : String) :
    (addMetricToEntry e m).metrics.find? (fun x => x.metric == mt) =
      (e.metrics.find? (fun x => x.metric == mt)).or
        (if m.metric == mt then some (serialize_measurement m) else none) := by
  unfold addMetricToEntry
  by_cases hseen : e.metrics.any (fun x => x.metric == m.metric)
  · rw [if_pos hseen]
    cases hmt : m.metric == mt
    · simp
    · obtain ⟨x, hx, hxm⟩ := List.any_eq_true.mp hseen
      have hxmt : (x.metric == mt) = true := by
        have h1 : x.metric = m.metric := by simpa using hxm
        have h2 : m.metric = mt := by simpa using hmt
        simp [h1, h2]
      have hsome : (e.metrics.find? (fun x => x.metric == mt)).isSome :=
        List.find?_isSome.mpr ⟨x, hx, hxmt⟩
      obtain ⟨y, hy⟩ := Option.isSome_iff_exists.mp hsome
      rw [hy]
      rfl
  · rw [if_neg hseen]
    simp only [List.find?_append]
    congr 1
    cases hmt : m.metric == mt
    · have : ((serialize_measurement m).metric == mt) = false := hmt
      simp [List.find?, this, hmt]
    · have : ((serialize_measurement m).metric == mt) = true := hmt
      simp [List.find?, this, hmt]

theorem summary_lookup_addRow (acc : List SummaryEntry) (row : Sensor × Measurement)
    (k mt : String) :
    summary_lookup (addSummaryRow acc row) k mt =
      (summary_lookup acc k mt).or
        (if row.1.key == k && row.2.metric == mt
          then some (serialize_measurement row.2) else none) := by
  induction acc with
  | nil =>
    simp only [addSummaryRow]
    rw [summary_lookup_cons]
    cases h1 : row.1.key == k
    · simp [summary_lookup, h1]
    · cases h2 : row.2.metric == mt
      · have : ((serialize_measurement row.2).metric == mt) = false := h2
        simp [summary_lookup, List.find?, this, h1, h2]
      · have : ((serialize_measurement row.2).metric == mt) = true := h2
        simp [summary_lookup, List.find?, this, h1, h2]
  | cons e es ih =>
    simp only [addSummaryRow]
    by_cases hek : e.key == row.1.key
    · rw [if_pos hek]
      rw [summary_lookup_cons, summary_lookup_cons, addMetricToEntry_key]
      by_cases h1 : e.key == k
      · rw [if_pos h1, if_pos h1, addMetricToEntry_find]
        congr 1
        have hkey : (row.1.key == k) = true := by
          have ha : e.key = row.1.key := by simpa using hek
          have hb : e.key = k := by simpa using h1
          simp [← ha, hb]
        simp [hkey]
      · rw [if_neg h1, if_neg h1]
        have hkf : (row.1.key == k) = false := by
          have ha : e.key = row.1.key := by simpa using hek
          have hb : ¬ e.key = k := by simpa using h1
          have hne : row.1.key ≠ k := by
            intro hrk
            exact hb (by rw [ha, hrk])
          simpa using hne
        simp [hkf]
    · rw [if_neg hek]
      rw [summary_lookup_cons, summary_lookup_cons]
      by_cases h1 : e.key == k
      · rw [if_pos h1, if_pos h1]
        have hkf : (row.1.key == k) = false := by
          have ha : e.key = k := by simpa using h1
          have hb : ¬ e.key = row.1.key := by simpa using hek
          have hne : row.1.key ≠ k := by
            intro hrk
            exact hb (by rw [ha, ← hrk])
          simpa using hne
        simp [hkf]
      · rw [if_neg h1, if_neg h1]
        exact ih

theorem build_summary_lookup (k mt : String) :
    ∀ (rows : List (Sensor × Measurement)) (acc : List SummaryEntry),
      summary_lookup (rows.foldl addSummaryRow acc) k mt =
        (summary_lookup acc k mt).or
          ((rows.find? (fun row => row.1.key == k && row.2.metric == mt)).map
            (fun row => serialize_measurement row.2)) := by
  intro rows
  induction rows with
  | nil => intro acc; simp
  | cons row rest ih =>
    intro acc
    rw [List.foldl_cons, ih, summary_lookup_addRow, Option.or_assoc]
    congr 1
    cases h : (row.1.key == k && row.2.metric == mt) <;> simp [List.find?, h]

/-- C5: for every store, cap, and `(device key, metric)` pair, the summary
reports exactly the serialized first reading for that pair encountered in
the scan (the measurements ordered by `recorded_at` descending, capped at
`min(cap, 2000)`), and no entry when the pair has no reading in that
window; the scan itself is descending-sorted and within the cap. -/
theorem claim_C5_summary_window (store : Store) (cap : Int) (k mt : String) :
    summary_lookup (get_summary store cap) k mt =
      ((summary_scan store cap).find?
        (fun row => row.1.key == k && row.2.metric == mt)).map
        (fun row => serialize_measurement row.2) ∧
    (0 ≤ cap → (summary_scan store cap).length ≤ (min cap 2000).toNat) ∧
    (summary_scan store cap).Pairwise (fun a b => recKey b ≤ recKey a) := by
  refine ⟨?_, ?_, ?_⟩
  · unfold get_summary build_summary_payload
    rw [build_summary_lookup]
    simp [summary_lookup]
  · intro hcap
    exact sqlLimit_length_le _ (le_min hcap (by norm_num)) _
  · exact List.Pairwise.sublist (sqlLimit_sublist _ _) (sortDesc_pairwise _)

theorem claim_C5_summary_window_witness :
    (summary_lookup (get_summary storeSummary 400) "ambient_bme280" "temperature" =
      ((summary_scan storeSummary 400).find?
        (fun row => row.1.key == "ambient_bme280" && row.2.metric == "temperature")).map
        (fun row => serialize_measurement row.2) ∧
    ((0 : Int) ≤ 400 →
      (summary_scan storeSummary 400).length ≤ (min (400 : Int) 2000).toNat) ∧
    (summary_scan storeSummary 400).Pairwise (fun a b => recKey b ≤ recKey a)) ∧
    summary_lookup (get_summary storeSummary 400) "ambient_bme280" "temperature" =
      some (SerMeas.mk "temperature" (PyFloat.finite (51 / 2)) "c" 15) :=
  ⟨claim_C5_summary_window storeSummary 400 "ambient_bme280" "temperature", by rfl⟩

/-! ### Ingestion round-trip lemmas and claim C2 -/

theorem filterMap_ext_mem {α β : Type} {f g : α → Option β} :
    ∀ {l : List α}, (∀ a ∈ l, f a = g a) → l.filterMap f = l.filterMap g := by
  intro l
  induction l with
  | nil => intro _; rfl
  | cons a t ih =>
    intro h
    rw [List.filterMap_cons, List.filterMap_cons, h a (List.mem_cons_self a t),
      ih (fun x hx => h x (List.mem_cons_of_mem a hx))]

theorem find_by_id_of_mem :
    ∀ {l : List Sensor}, l.Pairwise (fun a b => a.id ≠ b.id) → ∀ {s : Sensor}, s ∈ l →
      l.find? (fun x => x.id == s.id) = some s := by
  intro l
  induction l with
  | nil => intro _ s hs; cases hs
  | cons h t ih =>
    intro hpw s hs
    rcases List.mem_cons.mp hs with rfl | hmem
    · simp [List.find?]
    · have hne : h.id ≠ s.id := (List.pairwise_cons.mp hpw).1 s hmem
      have hbf : (h.id == s.id) = false := by simpa using hne
      simp only [List.find?, hbf]
      exact ih (List.pairwise_cons.mp hpw).2 hmem

theorem storeOK_empty : StoreOK emptyStore :=
  ⟨(by intro s hs; cases hs), List.Pairwise.nil, (by intro m hm; cases hm)⟩

theorem ingest_step_spec (store : Store) (data : NormReading) (hok : StoreOK store) :
    StoreOK (Store.mk (get_or_create_sensor store data).2.sensors
      ((get_or_create_sensor store data).2.measurements ++
        [Measurement.mk (get_or_create_sensor store data).1.id data.metric data.value
          data.unit data.recorded_at])
      (get_or_create_sensor store data).2.next_sensor_id) ∧
    jproj (Store.mk (get_or_create_sensor store data).2.sensors
      ((get_or_create_sensor store data).2.measurements ++
        [Measurement.mk (get_or_create_sensor store data).1.id data.metric data.value
          data.unit data.recorded_at])
      (get_or_create_sensor store data).2.next_sensor_id) =
      jproj store ++ [projN data] := by
  obtain ⟨hbound, hdistinct, hresolve⟩ := hok
  unfold get_or_create_sensor
  cases hfind : store.sensors.find? (fun s => s.key == data.sensor_key) with
  | some s =>
    simp only []
    have hsmem : s ∈ store.sensors := List.mem_of_find?_eq_some hfind
    have hskey : s.key = data.sensor_key := by
      simpa using List.find?_some hfind
    have hsid : sensorById store s.id = some s := find_by_id_of_mem hdistinct hsmem
    constructor
    · refine ⟨hbound, hdistinct, ?_⟩
      intro m hm
      rcases List.mem_append.mp hm with hold | hnew
      · exact hresolve m hold
      · rcases List.mem_singleton.mp hnew with rfl
        exact ⟨s, hsmem, rfl⟩
    · unfold jproj joined
      rw [List.filterMap_append]
      rw [List.map_append]
      congr 1
      have : sensorById (Store.mk store.sensors store.measurements store.next_sensor_id)
          s.id = some s := hsid
      simp only [List.filterMap_cons, List.filterMap_nil, sensorById] at hsid ⊢
      rw [hsid]
      simp [serialize_with_sensor, projN, hskey]
  | none =>
    simp only []
    constructor
    · refine ⟨?_, ?_, ?_⟩
      · intro s hs
        rcases List.mem_append.mp hs with hold | hnew
        · exact Nat.lt_succ_of_lt (hbound s hold)
        · rcases List.mem_singleton.mp hnew with rfl
          exact Nat.lt_succ_self _
      · rw [List.pairwise_append]
        refine ⟨hdistinct, List.pairwise_singleton _ _, ?_⟩
        intro a ha b hb
        rcases List.mem_singleton.mp hb with rfl
        exact Nat.ne_of_lt (hbound a ha)
      · intro m hm
        rcases List.mem_append.mp hm with hold | hnew
        · obtain ⟨s, hs, hid⟩ := hresolve m hold
          exact ⟨s, List.mem_append_left _ hs, hid⟩
        · rcases List.mem_singleton.mp hnew with rfl
          refine ⟨_, List.mem_append_right _ (List.mem_singleton_self _), rfl⟩
    · unfold jproj joined
      rw [List.filterMap_append]
      rw [List.map_append]
      congr 1
      · apply congrArg
        apply filterMap_ext_mem
        intro m hm
        obtain ⟨s, hs, hid⟩ := hresolve m hm
        have hsome : (store.sensors.find? (fun x => x.id == m.sensor_id)).isSome :=
          List.find?_isSome.mpr ⟨s, hs, by simpa using hid⟩
        obtain ⟨y, hy⟩ := Option.isSome_iff_exists.mp hsome
        simp only [sensorById, List.find?_append, hy]
        rfl
      · have hnone : store.sensors.find? (fun x => x.id == store.next_sensor_id) = none := by
          rw [List.find?_eq_none]
          intro x hx
          simpa using Nat.ne_of_lt (hbound x hx)
        simp only [List.filterMap_cons, List.filterMap_nil, sensorById,
          List.find?_append, hnone]
        simp [List.find?, serialize_with_sensor, projN]


theorem ingest_loop_ok_spec (now : Int) :
    ∀ (rs : List RawReading) (store : Store) (c : Nat),
      StoreOK store →
      (∀ r ∈ rs, ∃ d, normalize_reading now r = Except.ok d) →
      (ingest_loop now rs store c).1 = ApiResult.ok (c + rs.length) ∧
      StoreOK (ingest_loop now rs store c).2 ∧
      jproj (ingest_loop now rs store c).2 = jproj store ++ (normsOf now rs).map projN := by
  intro rs
  induction rs with
  | nil =>
    intro store c hok _
    refine ⟨rfl, hok, ?_⟩
    simp [ingest_loop, normsOf]
  | cons r rest ih =>
    intro store c hok hvalid
    obtain ⟨d, hn⟩ := hvalid r (List.mem_cons_self r rest)
    have hstep := ingest_step_spec store d hok
    have hrest : ∀ x ∈ rest, ∃ e, normalize_reading now x = Except.ok e :=
      fun x hx => hvalid x (List.mem_cons_of_mem r hx)
    have hih := ih _ (c + 1) hstep.1 hrest
    simp only [ingest_loop, hn]
    refine ⟨?_, hih.2.1, ?_⟩
    · rw [hih.1]
      have : c + 1 + rest.length = c + (r :: rest).length := by
        simp [List.length_cons]
        omega
      rw [this]
    · rw [hih.2.2, hstep.2]
      have hnorms : normsOf now (r :: rest) = d :: normsOf now rest := by
        simp [normsOf, hn, List.filterMap_cons, Except.toOption]
      rw [hnorms, List.map_cons, List.append_assoc]
      rfl

theorem joined_filter_length (store : Store) (k mt : String) (sdt edt : Option Int) :
    ((joined store).filter (matchesQuery k mt sdt edt)).length =
      ((jproj store).filter (matchesSer k mt sdt edt)).length := by
  unfold jproj
  rw [List.filter_map, List.length_map]
  exact congrArg List.length (List.filter_congr (fun row _ => rfl))

theorem jproj_filter_none_bounds (store : Store) (k mt : String)
    (norms : List NormReading) (hjp : jproj store = norms.map projN) :
    (jproj store).filter (matchesSer k mt none none) =
      (norms.filter (fun n => n.sensor_key == k && n.metric == mt)).map projN := by
  rw [hjp, List.filter_map]
  congr 1
  apply List.filter_congr
  intro n _
  simp [matchesSer, projN, Function.comp]

/-- C2: a non-empty batch in which every record passes validation is fully
ingested from a fresh store: the endpoint answers `ingested = N`, and the
subsequent unbounded ascending range query for any `(device key, metric)`
filter returns (as a permutation — the query orders by `recorded_at`)
exactly the serialized readings of the batch matching that filter. -/
theorem claim_C2_valid_batch_roundtrip (now : Int) (rs : List RawReading)
    (k mt : String) (lim : Int)
    (hne : rs ≠ [])
    (hvalid : ∀ r ∈ rs, ∃ d, normalize_reading now r = Except.ok d)
    (hlim : 0 ≤ lim)
    (hno : ((normsOf now rs).filter
      (fun n => n.sensor_key == k && n.metric == mt)).length ≤ (min lim 10000).toNat) :
    (post_measurements now emptyStore (some rs)).1 = ApiResult.ok rs.length ∧
    (get_measurements_core (post_measurements now emptyStore (some rs)).2 k mt
        none none lim "asc").Perm
      (((normsOf now rs).filter (fun n => n.sensor_key == k && n.metric == mt)).map
        projN) := by
  cases rs with
  | nil => exact absurd rfl hne
  | cons a rest =>
    have hloop := ingest_loop_ok_spec now (a :: rest) emptyStore 0 storeOK_empty hvalid
    have hpost : post_measurements now emptyStore (some (a :: rest)) =
        ingest_loop now (a :: rest) emptyStore 0 := rfl
    rw [hpost]
    have hjp : jproj (ingest_loop now (a :: rest) emptyStore 0).2 =
        (normsOf now (a :: rest)).map projN := by
      rw [hloop.2.2]
      have : jproj emptyStore = [] := rfl
      rw [this, List.nil_append]
    constructor
    · rw [hloop.1, Nat.zero_add]
    · have hfe := jproj_filter_none_bounds _ k mt _ hjp
      have hlen : (((joined (ingest_loop now (a :: rest) emptyStore 0).2).filter
          (matchesQuery k mt none none)).length ≤ (min lim 10000).toNat) := by
        rw [joined_filter_length, hfe, List.length_map]
        exact hno
      have hperm := core_perm_filter (ingest_loop now (a :: rest) emptyStore 0).2
        k mt none none lim "asc" hlim hlen
      rw [hfe] at hperm
      exact hperm


theorem claim_C2_valid_batch_roundtrip_witness :
    ([rValid, rValid2] ≠ ([] : List RawReading)) ∧
    ((post_measurements 0 emptyStore (some [rValid, rValid2])).1 =
        ApiResult.ok ([rValid, rValid2] : List RawReading).length ∧
      (get_measurements_core (post_measurements 0 emptyStore (some [rValid, rValid2])).2
          "probe_x" "temperature" none none 1440 "asc").Perm
        (((normsOf 0 [rValid, rValid2]).filter
          (fun n => n.sensor_key == "probe_x" && n.metric == "temperature")).map projN)) :=
  ⟨by decide,
    claim_C2_valid_batch_roundtrip 0 [rValid, rValid2] "probe_x" "temperature" 1440
      (by decide)
      (by
        intro r hr
        rcases List.mem_cons.mp hr with rfl | hr2
        · exact ⟨NormReading.mk "probe_x" none none none none "temperature"
            (PyFloat.finite (43 / 2)) "c" 0, rfl⟩
        · rcases List.mem_singleton.mp hr2 with rfl
          exact ⟨NormReading.mk "probe_x" none none none none "temperature"
            (PyFloat.finite 27) "c" 0, rfl⟩)
      (by decide)
      (by decide)⟩

end Terrarium
